import Mathlib

/-!
Shallow embedding of the Discord event-announcement bot (`main.py`).

The program has four claim-relevant pieces:
* `parse_event_data` — turns spreadsheet rows into normalized event records;
* `format_event_message` — derives a notification view from an event's text;
* `check_events` — the per-tick announcement loop over the announced-id set;
* `excel_command` — the operator command surface (start/stop/...).

Python `datetime` values are modelled by their calendar date only: the
program never observes the time-of-day component (comparisons go through
`.date()` and all formatting uses date fields only).
-/

/-- Calendar date, the observable part of a Python `datetime`. -/
structure Date where
  year : Nat
  month : Nat
  day : Nat
deriving DecidableEq, Repr

/-- Gregorian leap-year test, as used by Python's `datetime` validation. -/
def isLeap (y : Nat) : Bool :=
  y % 4 = 0 && (y % 100 ≠ 0 || y % 400 = 0)

/-- Number of days in a month of a given year. -/
def daysInMonth (y m : Nat) : Nat :=
  if m = 2 then (if isLeap y then 29 else 28)
  else if m = 4 || m = 6 || m = 9 || m = 11 then 30
  else 31

/-- Python `datetime(year, month, day)`: validates ranges (year 1..9999,
month 1..12, day within the month) and raises `ValueError` otherwise,
modelled as `none`. -/
def mkDate (y m d : Int) : Option Date :=
  if 1 ≤ y ∧ y ≤ 9999 ∧ 1 ≤ m ∧ m ≤ 12 ∧ 1 ≤ d ∧
     d ≤ (daysInMonth y.toNat m.toNat : Int) then
    some ⟨y.toNat, m.toNat, d.toNat⟩
  else none

/-- `today + timedelta(days=1)` on the calendar. -/
def nextDay (d : Date) : Date :=
  if d.day < daysInMonth d.year d.month then ⟨d.year, d.month, d.day + 1⟩
  else if d.month < 12 then ⟨d.year, d.month + 1, 1⟩
  else ⟨d.year + 1, 1, 1⟩

/-- Left-pad the decimal digits of `n` with zeros to width 2. -/
def pad2 (n : Nat) : String :=
  if n < 10 then "0" ++ toString n else toString n

/-- Left-pad the decimal digits of `n` with zeros to width 4. -/
def pad4 (n : Nat) : String :=
  if n < 10 then "000" ++ toString n
  else if n < 100 then "00" ++ toString n
  else if n < 1000 then "0" ++ toString n
  else toString n

/-- `strftime('%Y%m%d')`. -/
def dateStamp (d : Date) : String :=
  pad4 d.year ++ pad2 d.month ++ pad2 d.day

/-- `str(datetime)` date part, `YYYY-MM-DD`. -/
def dateISO (d : Date) : String :=
  pad4 d.year ++ "-" ++ pad2 d.month ++ "-" ++ pad2 d.day

/-- Python `str.split(sep)` for a single-character separator, on the
character list: always returns at least one (possibly empty) piece. -/
def splitChar (sep : Char) : List Char → List (List Char)
  | [] => [[]]
  | c :: rest =>
    match splitChar sep rest with
    | [] => [[]]
    | g :: gs => if c = sep then [] :: g :: gs else (c :: g) :: gs

/-- Python `str.split(sep)` on strings (single-character separator). -/
def pySplit (sep : Char) (s : String) : List String :=
  (splitChar sep s.data).map (fun l => String.mk l)

/-- Helper for `wsTokens`: accumulates the current (reversed) token. -/
def wsTokensAux : List Char → List Char → List (List Char)
  | [], acc => if acc.isEmpty then [] else [acc.reverse]
  | c :: rest, acc =>
    if c.isWhitespace then
      if acc.isEmpty then wsTokensAux rest [] else acc.reverse :: wsTokensAux rest []
    else wsTokensAux rest (c :: acc)

/-- Python `str.split()` with no separator: whitespace-delimited tokens,
empty tokens discarded. -/
def wsTokens (s : String) : List String :=
  (wsTokensAux s.data []).map (fun l => String.mk l)

/-- Decimal value of a nonempty all-digit character list, `none` otherwise. -/
def digitsVal (l : List Char) : Option Nat :=
  if l ≠ [] ∧ l.all Char.isDigit then
    some (l.foldl (fun a c => a * 10 + (c.toNat - 48)) 0)
  else none

/-- Strip leading and trailing whitespace from a character list
(Python `str.strip()`). -/
def stripChars (l : List Char) : List Char :=
  ((l.dropWhile Char.isWhitespace).reverse.dropWhile Char.isWhitespace).reverse

/-- Python `str.strip()`. -/
def pyStrip (s : String) : String :=
  String.mk (stripChars s.data)

/-- Python `str.lower()` (ASCII, which covers the program's inputs). -/
def pyLower (s : String) : String :=
  String.mk (s.data.map Char.toLower)

/-- Python `int(s)` on the strings the program can feed it: optional
surrounding whitespace, optional sign, decimal digits; `ValueError`
is modelled as `none`. -/
def pyInt (s : String) : Option Int :=
  match stripChars s.data with
  | '+' :: rest => (digitsVal rest).map (fun n => (n : Int))
  | '-' :: rest => (digitsVal rest).map (fun n => -(n : Int))
  | l => (digitsVal l).map (fun n => (n : Int))

/-- Whether `pat` is a leading segment of `l`. -/
def startsChars (pat : List Char) (l : List Char) : Bool :=
  match pat, l with
  | [], _ => true
  | _ :: _, [] => false
  | a :: as, b :: bs => a = b && startsChars as bs

/-- Whether `pat` occurs as a contiguous segment of `l`. -/
def infixChars (pat : List Char) (l : List Char) : Bool :=
  match l with
  | [] => startsChars pat []
  | _ :: rest => startsChars pat l || infixChars pat rest

/-- Substring test: `needle in haystack` in Python. -/
def strContainsSub (needle haystack : String) : Bool :=
  infixChars needle.data haystack.data

/-- Spreadsheet cell value, as surfaced by pandas `iterrows`. -/
inductive Cell where
  /-- a `datetime`/`pd.Timestamp` cell (calendar date; time never observed) -/
  | cdate (d : Date)
  /-- a text cell -/
  | cstr (s : String)
  /-- an integer cell -/
  | cint (n : Int)
  /-- a float `NaN` (pandas missing value) -/
  | cnan
  /-- Python `None` (absent positional cell) -/
  | cnone
deriving DecidableEq, Repr

/-- pandas `pd.isna`. -/
def isna : Cell → Bool
  | Cell.cnan => true
  | Cell.cnone => true
  | _ => false

/-- Python `str(cell)`. -/
def cellStr : Cell → String
  | Cell.cdate d => dateISO d ++ " 00:00:00"
  | Cell.cstr s => s
  | Cell.cint n => toString n
  | Cell.cnan => "nan"
  | Cell.cnone => "None"

/-- `str(content) if not pd.isna(content) else ''` (line 76). -/
def coerceContent (c : Cell) : String :=
  if isna c then "" else cellStr c

/-- Normalized event record (the `event_info` dict, lines 131–135). -/
structure EventRec where
  date : Date
  content : String
  unique_id : String
deriving DecidableEq, Repr

/-- `'DD/MM/YY'` branch (lines 112–119): split on `/`; exactly 3 parts are
read as day/month/year, a 2-digit year gets `"20"` prefixed, and
`datetime(int(year), int(month), int(day))` builds the date. Any other
split count leaves the date unresolved; `int`/`datetime` failures abort
the row, which is also observed as `none`. -/
def parseSlash (s : String) : Option Date :=
  match pySplit '/' s with
  | [dPart, mPart, yPart] =>
    let yPart := if yPart.length = 2 then "20" ++ yPart else yPart
    match pyInt yPart, pyInt mPart, pyInt dPart with
    | some y, some m, some d => mkDate y m d
    | _, _, _ => none
  | _ => none

/-- Strict `%Y-%m-%d` parse of one token, as Python `strptime` accepts it:
4-digit year, 1–2 digit month 1..12, 1–2 digit day valid in that month. -/
def parseYMD (t : String) : Option Date :=
  match pySplit '-' t with
  | [ys, ms, ds] =>
    if ys.length = 4 && ys.data.all Char.isDigit &&
       1 ≤ ms.length && ms.length ≤ 2 && ms.data.all Char.isDigit &&
       1 ≤ ds.length && ds.length ≤ 2 && ds.data.all Char.isDigit then
      match digitsVal ys.data, digitsVal ms.data, digitsVal ds.data with
      | some y, some m, some d => mkDate y m d
      | _, _, _ => none
    else none
  | _ => none

/-- `'YYYY-MM-DD'` branch (lines 122–127): `strptime(date_str.split()[0],
'%Y-%m-%d')`; all failures (including an empty token list) are caught and
leave the date unresolved. -/
def parseDash (s : String) : Option Date :=
  match wsTokens s with
  | [] => none
  | t :: _ => parseYMD t

/-- Date coercion (lines 94–127), fixed order, first success wins:
structured date used directly; else a text value goes to the `/` branch
when it contains `/`, to the `-` branch when it contains `-` but not `T`,
and is unresolved otherwise. -/
def coerceDate (c : Cell) : Option Date :=
  match c with
  | Cell.cdate d => some d
  | c =>
    let s := cellStr c
    if s.data.contains '/' then parseSlash s
    else if s.data.contains '-' && !(s.data.contains 'T') then parseDash s
    else none

/-- Index of the first occurrence of `name` in the column list. -/
def colIdx (name : String) : List String → Nat
  | [] => 0
  | c :: rest => if c = name then 0 else colIdx name rest + 1

/-- Cell selection (lines 63–73): by the literal column names `Date` and
`content` when both exist, else `Date` by name with the second positional
cell, else the first two positional cells. Missing positional fallbacks
are `None` for the date and `''` for the content. -/
def selectCells (cols : List String) (row : List Cell) : Cell × Cell :=
  if "Date" ∈ cols ∧ "content" ∈ cols then
    (row.getD (colIdx "Date" cols) Cell.cnan, row.getD (colIdx "content" cols) Cell.cnan)
  else if "Date" ∈ cols then
    (row.getD (colIdx "Date" cols) Cell.cnan,
     if row.length > 1 then row.getD 1 Cell.cnan else Cell.cstr "")
  else
    ((if row.length > 0 then row.getD 0 Cell.cnan else Cell.cnone),
     if row.length > 1 then row.getD 1 Cell.cnan else Cell.cstr "")

/-- Processing of one non-header row (lines 63–145): select cells, coerce
content, skip on NaN date / empty or `"nan"` content / residual header
content, then coerce the date; success yields the `event_info` record
with `unique_id = strftime('%Y%m%d') + '_' + hash(content)`. The Python
`hash` builtin is an opaque deterministic function, passed as `hash`. -/
def parseRow (hash : String → Int) (cols : List String) (row : List Cell) :
    Option EventRec :=
  let dc := (selectCells cols row).1
  let content := coerceContent (selectCells cols row).2
  if isna dc then none
  else if content = "" ∨ content = "nan" then none
  else if pyLower content = "content" then none
  else
    match coerceDate dc with
    | some d =>
      some { date := d, content := content,
             unique_id := dateStamp d ++ "_" ++ toString (hash content) }
    | none => none

/-- Header-row detection at index 0 (lines 57–61):
`first_col == 'Date' or str(first_col).lower() == 'date'`. -/
def headerRow (r : List Cell) : Bool :=
  pyLower (cellStr (r.headD Cell.cnone)) = "date"

/-- Tabular input: column names and rows of cells. -/
structure DataFrame where
  cols : List String
  rows : List (List Cell)

/-- `parse_event_data` (lines 45–148): skip the header row at index 0 when
present, then parse the remaining rows, dropping every row that fails. -/
def parse_event_data (hash : String → Int) (df : DataFrame) : List EventRec :=
  match df.rows with
  | [] => []
  | r0 :: rs =>
    if headerRow r0 then rs.filterMap (parseRow hash df.cols)
    else (r0 :: rs).filterMap (parseRow hash df.cols)

/-- Day count from 1970-01-01 for a proleptic Gregorian date
(the standard civil-days computation). -/
def daysFromCivil (y m d : Int) : Int :=
  let y' := if m ≤ 2 then y - 1 else y
  let era := (if 0 ≤ y' then y' else y' - 399) / 400
  let yoe := y' - era * 400
  let doy := (153 * (if 2 < m then m - 3 else m + 9) + 2) / 5 + d - 1
  let doe := yoe * 365 + yoe / 4 - yoe / 100 + doy
  era * 146097 + doe - 719468

/-- Weekday index of a date: 0 = Sunday, ..., 6 = Saturday. -/
def weekdayIdx (d : Date) : Nat :=
  ((daysFromCivil d.year d.month d.day + 4) % 7).toNat

/-- English weekday names, Sunday first. -/
def weekdayName (n : Nat) : String :=
  [ "Sunday", "Monday", "Tuesday", "Wednesday", "Thursday", "Friday",
    "Saturday" ].getD n ""

/-- English month names. -/
def monthName (n : Nat) : String :=
  [ "January", "February", "March", "April", "May", "June", "July",
    "August", "September", "October", "November", "December" ].getD (n - 1) ""

/-- `date.strftime("%A, %B %d, %Y")` (line 169). -/
def strftimeLong (d : Date) : String :=
  weekdayName (weekdayIdx d) ++ ", " ++ monthName d.month ++ " " ++
    pad2 d.day ++ ", " ++ pad4 d.year

/-- Match `\d{1,2}:` greedily at the head of the input, returning the
consumed characters and the rest. The two-digit alternative is tried
first; the alternatives cannot overlap because `:` is not a digit. -/
def matchHC : List Char → Option (List Char × List Char)
  | a :: b :: c :: rest =>
    if a.isDigit && b.isDigit && c = ':' then some ([a, b, ':'], rest)
    else if a.isDigit && b = ':' then some ([a, ':'], c :: rest)
    else none
  | [a, b] => if a.isDigit && b = ':' then some ([a, ':'], []) else none
  | _ => none

/-- Match exactly two digits at the head of the input. -/
def matchMM : List Char → Option (List Char × List Char)
  | a :: b :: rest => if a.isDigit && b.isDigit then some ([a, b], rest) else none
  | _ => none

/-- Match one literal character at the head of the input. -/
def matchLit (c : Char) : List Char → Option (List Char × List Char)
  | a :: rest => if a = c then some ([a], rest) else none
  | _ => none

/-- Match `[AP]M` at the head of the input. -/
def matchAP : List Char → Option (List Char × List Char)
  | a :: b :: rest =>
    if (a = 'A' || a = 'P') && b = 'M' then some ([a, b], rest) else none
  | _ => none

/-- Match the regex `\d{1,2}:\d{2}-\d{1,2}:\d{2}\s*[AP]M` (line 183)
anchored at the head of the input, returning the matched characters. -/
def matchTimeAt (cs : List Char) : Option (List Char) :=
  (matchHC cs).bind fun p1 =>
  (matchMM p1.2).bind fun p2 =>
  (matchLit '-' p2.2).bind fun p3 =>
  (matchHC p3.2).bind fun p4 =>
  (matchMM p4.2).bind fun p5 =>
  let ws := p5.2.takeWhile Char.isWhitespace
  (matchAP (p5.2.dropWhile Char.isWhitespace)).map fun p7 =>
    p1.1 ++ p2.1 ++ p3.1 ++ p4.1 ++ p5.1 ++ ws ++ p7.1

/-- `re.search` for the time pattern: leftmost match wins, `group(1)` is
the whole match. -/
def searchTime : List Char → Option String
  | [] => none
  | c :: rest =>
    match matchTimeAt (c :: rest) with
    | some m => some (String.mk m)
    | none => searchTime rest

/-- The details loop (lines 192–195): keep the stripped text of every
later line that is non-blank after stripping and does not start with
`-` (tested on the unstripped line). -/
def collectDetails : List String → List String
  | [] => []
  | l :: ls =>
    if pyStrip l != "" && !(startsChars ['-'] l.data) then
      pyStrip l :: collectDetails ls
    else collectDetails ls

/-- Join strings with a newline separator (`'\n'.join`). -/
def joinNL : List String → String
  | [] => ""
  | [s] => s
  | s :: rest => s ++ "\n" ++ joinNL rest

/-- Notification view of an event: the embed's claim-relevant content.
`title` is the derived event title placed in the embed description;
`dateField`, `location`, `time` and `details` are the embed fields
added by `format_event_message` (lines 167–202). -/
structure Notification where
  title : String
  dateField : String
  location : Option String
  time : Option String
  details : Option String
deriving DecidableEq, Repr

/-- `format_event_message` (lines 150–206): split the content into lines;
the title is the first line (with a fixed fallback when there are no
lines); the location field is present only when `Jakarta, Indonesia`
occurs in the content; the time field holds the first regex match; the
details field joins the first five collected detail lines when any
exist. -/
def format_event_message (e : EventRec) : Notification :=
  let lines := pySplit '\n' e.content
  let title := match lines with
    | [] => "Event Reminder"
    | t :: _ => t
  let details := collectDetails (lines.drop 1)
  { title := title
    dateField := strftimeLong e.date
    location :=
      if strContainsSub "Jakarta, Indonesia" e.content then
        some "Jakarta, Indonesia"
      else none
    time := searchTime e.content.data
    details := if details.isEmpty then none else some (joinNL (details.take 5)) }

/-- The announcement loop of `check_events` (lines 238–252) with the tick's
exception handler (lines 254–257). `sendOk e` tells whether delivering
the formatted message for `e` succeeds on this tick; a raise aborts the
the tick, keeping the deliveries and set additions made so far. Returns
the list of events whose notifications were delivered this tick and the
updated announced-id set. -/
def check_events (sendOk : EventRec → Bool) (tmrw : Date) :
    List EventRec → Finset String → List EventRec × Finset String
  | [], ann => ([], ann)
  | e :: rest, ann =>
    if e.date = tmrw then
      if e.unique_id ∈ ann then check_events sendOk tmrw rest ann
      else if sendOk e then
        let r := check_events sendOk tmrw rest (insert e.unique_id ann)
        (e :: r.1, r.2)
      else ([], ann)
    else check_events sendOk tmrw rest ann

/-- State touched by the `!excel` command surface: the active announcement
channel and whether the periodic task is running. -/
structure BotState where
  channelId : Option Nat
  running : Bool
deriving DecidableEq, Repr

/-- Actions of the `!excel` command (lines 268–357). -/
inductive BotAction where
  | start (chan : Nat)
  | stop
  | status
  | checkNow
  | debug
  | help
deriving DecidableEq, Repr

/-- `excel_command` effect on the scheduling/destination state:
`start` binds the invoking channel and ensures the task runs; `stop`
halts the task and clears the channel only when the task was running;
the other actions leave this state unchanged. -/
def excel_command (s : BotState) : BotAction → BotState
  | BotAction.start c => { channelId := some c, running := true }
  | BotAction.stop =>
    if s.running then { channelId := none, running := false } else s
  | _ => s

/-- Command-surface states reachable from process start
(no channel, task not running). -/
inductive Reachable : BotState → Prop
  | init : Reachable ⟨none, false⟩
  | step (s : BotState) (a : BotAction) : Reachable s → Reachable (excel_command s a)

/-- Spec-side reading of "the first line of the content": the characters
before the first newline. Stated independently of `pySplit` so that the
title computation can be compared against it. -/
def specFirstLine (s : String) : String :=
  String.mk (s.data.takeWhile (fun c => !(c == '\n')))

/-- The content string of the formatter example. -/
def launchContent : String :=
  "Launch Party\n9:00-11:00 AM\nJakarta, Indonesia\n- ignore this\nMore info"

/-!
Helper lemmas shared by the claim theorems.
-/

/-- Python `split` never returns an empty list of pieces. -/
theorem splitChar_ne_nil (sep : Char) (l : List Char) : splitChar sep l ≠ [] := by
  cases l with
  | nil => simp [splitChar]
  | cons c rest =>
    simp only [splitChar]
    cases splitChar sep rest with
    | nil => simp
    | cons g gs => split_ifs <;> simp

/-- The first piece of a Python `split` is everything before the first
separator. -/
theorem splitChar_headD (sep : Char) (l : List Char) :
    (splitChar sep l).headD [] = l.takeWhile (fun c => !(c == sep)) := by
  induction l with
  | nil => rfl
  | cons c rest ih =>
    obtain ⟨g, gs, hs⟩ : ∃ g gs, splitChar sep rest = g :: gs := by
      cases h : splitChar sep rest with
      | nil => exact absurd h (splitChar_ne_nil sep rest)
      | cons g gs => exact ⟨g, gs, rfl⟩
    rw [hs] at ih
    simp only [splitChar, hs]
    by_cases hc : c = sep
    · simp [hc]
    · simp only [List.takeWhile_cons, hc, if_neg hc]
      simp only [List.headD_cons] at ih ⊢
      simp [hc, ih]

/-- The details loop is the filter/map/truncate description of the spec:
stripped later lines that are non-blank and do not start with `-`. -/
theorem collectDetails_eq (ls : List String) :
    collectDetails ls =
      (ls.filter (fun l => pyStrip l != "" && !(startsChars ['-'] l.data))).map
        pyStrip := by
  induction ls with
  | nil => rfl
  | cons l ls ih =>
    simp only [collectDetails, List.filter_cons]
    by_cases h : (pyStrip l != "" && !(startsChars ['-'] l.data)) = true
    · simp [h, ih]
    · simp [h, ih]

/-- The announced set only grows during a tick, whatever the sink does. -/
theorem check_events_subset (sendOk : EventRec → Bool) (t : Date) :
    ∀ (evs : List EventRec) (ann : Finset String),
      ann ⊆ (check_events sendOk t evs ann).2 := by
  intro evs
  induction evs with
  | nil => intro ann; simp [check_events]
  | cons e rest ih =>
    intro ann
    simp only [check_events]
    split_ifs with h1 h2 h3
    · exact ih ann
    · exact (Finset.subset_insert _ _).trans (ih _)
    · exact Finset.Subset.refl _
    · exact ih ann

/-- An id already in the announced set is never delivered during a tick. -/
theorem check_events_count_zero (sendOk : EventRec → Bool) (t : Date) (I : String) :
    ∀ (evs : List EventRec) (ann : Finset String), I ∈ ann →
      (check_events sendOk t evs ann).1.countP
        (fun x => decide (x.unique_id = I)) = 0 := by
  intro evs
  induction evs with
  | nil => intro ann _; simp [check_events]
  | cons e rest ih =>
    intro ann h
    simp only [check_events]
    split_ifs with h1 h2 h3
    · exact ih ann h
    · have hne : ¬ e.unique_id = I := fun hEq => h2 (hEq ▸ h)
      simp only [List.countP_cons, hne, decide_eq_true_eq, if_neg hne,
        decide_eq_false hne]
      simpa using ih (insert e.unique_id ann) (Finset.mem_insert_of_mem h)
    · simp
    · exact ih ann h

/-- With an always-successful sink, an event on the target date whose id is
not yet announced is delivered exactly once and its id enters the set. -/
theorem check_events_delivers (t : Date) (I : String) :
    ∀ (evs : List EventRec) (ann : Finset String),
      (∃ x ∈ evs, x.date = t ∧ x.unique_id = I) → I ∉ ann →
      (check_events (fun _ => true) t evs ann).1.countP
          (fun x => decide (x.unique_id = I)) = 1 ∧
        I ∈ (check_events (fun _ => true) t evs ann).2 := by
  intro evs
  induction evs with
  | nil =>
    rintro ann ⟨x, hx, -⟩ -
    cases hx
  | cons e rest ih =>
    rintro ann ⟨x, hx, hxd, hxi⟩ hI
    simp only [check_events, if_pos rfl]
    by_cases h1 : e.date = t
    · by_cases h2 : e.unique_id ∈ ann
      · have hne : ¬ e.unique_id = I := fun hEq => hI (hEq ▸ h2)
        have hx' : x ∈ rest := by
          rcases List.mem_cons.mp hx with rfl | hx'
          · exact absurd hxi hne
          · exact hx'
        simpa [h1, h2] using ih ann ⟨x, hx', hxd, hxi⟩ hI
      · by_cases hei : e.unique_id = I
        · constructor
          · have hz := check_events_count_zero (fun _ => true) t I rest
              (insert e.unique_id ann) (by rw [hei]; exact Finset.mem_insert_self _ _)
            rw [hei, List.countP_eq_zero] at hz
            simp only [decide_eq_true_eq] at hz
            simpa [h1, h2, hI, List.countP_cons, hei] using hz
          · have hmem : I ∈ insert e.unique_id ann := by
              rw [hei]; exact Finset.mem_insert_self _ _
            simpa [h1, h2, hI, hei] using
              check_events_subset (fun _ => true) t rest (insert e.unique_id ann) hmem
        · have hx' : x ∈ rest := by
            rcases List.mem_cons.mp hx with rfl | hx'
            · exact absurd hxi hei
            · exact hx'
          have hI' : I ∉ insert e.unique_id ann := by
            simp only [Finset.mem_insert]
            rintro (rfl | hmem)
            · exact hei rfl
            · exact hI hmem
          obtain ⟨c1, c2⟩ := ih (insert e.unique_id ann) ⟨x, hx', hxd, hxi⟩ hI'
          constructor
          · simp [h1, h2, List.countP_cons, hei, c1]
          · simpa [h1, h2] using c2
    · have hx' : x ∈ rest := by
        rcases List.mem_cons.mp hx with rfl | hx'
        · exact absurd hxd h1
        · exact hx'
      simpa [h1] using ih ann ⟨x, hx', hxd, hxi⟩ hI

/-- When the sink fails for every event carrying a given id, a tick cannot
add that id to the announced set. -/
theorem check_events_not_gained (sendOk : EventRec → Bool) (t : Date) (I : String)
    (hf : ∀ x : EventRec, x.unique_id = I → sendOk x = false) :
    ∀ (evs : List EventRec) (ann : Finset String), I ∉ ann →
      I ∉ (check_events sendOk t evs ann).2 := by
  intro evs
  induction evs with
  | nil => intro ann hI; simpa [check_events] using hI
  | cons e rest ih =>
    intro ann hI
    simp only [check_events]
    split_ifs with h1 h2 h3
    · exact ih ann hI
    · have hne : ¬ e.unique_id = I := by
        intro hEq
        rw [hf e hEq] at h3
        exact Bool.false_ne_true h3
      refine ih (insert e.unique_id ann) ?_
      simp only [Finset.mem_insert]
      rintro (rfl | hmem)
      · exact hne rfl
      · exact hI hmem
    · simpa using hI
    · exact ih ann hI

/-- Every record produced by the row parser carries the derived id. -/
theorem parseRow_unique_id (hash : String → Int) (cols : List String)
    (row : List Cell) (ev : EventRec) (h : parseRow hash cols row = some ev) :
    ev.unique_id = dateStamp ev.date ++ "_" ++ toString (hash ev.content) := by
  simp only [parseRow] at h
  split_ifs at h
  cases hcd : coerceDate (selectCells cols row).1 with
  | none => rw [hcd] at h; cases h
  | some d =>
    rw [hcd] at h
    cases h
    rfl

/-- In every reachable command-surface state, a stopped scheduler implies a
cleared destination. -/
theorem reachable_not_running_clear (s : BotState) (h : Reachable s) :
    s.running = false → s.channelId = none := by
  induction h with
  | init => intro _; rfl
  | step s a _ ih =>
    cases a with
    | start c => simp [excel_command]
    | stop =>
      simp only [excel_command]
      split_ifs with hr
      · intro _; rfl
      · exact ih
    | status => exact ih
    | checkNow => exact ih
    | debug => exact ih
    | help => exact ih



/-!
Claim theorems.
-/

/-- C1: for every event list, today, and announced-set, an event dated
`today + 1` whose id is not yet announced is delivered exactly once by a
(successful) check, its id is added to the set, and a second check with
the same today delivers nothing further for that id. Deliveries are
identified by the delivered event's id. -/
theorem claim1_announced_exactly_once (today : Date) (events : List EventRec)
    (ann : Finset String) (e : EventRec) (he : e ∈ events)
    (hd : e.date = nextDay today) (hn : e.unique_id ∉ ann) :
    (check_events (fun _ => true) (nextDay today) events ann).1.countP
        (fun x => decide (x.unique_id = e.unique_id)) = 1 ∧
      e.unique_id ∈ (check_events (fun _ => true) (nextDay today) events ann).2 ∧
      (check_events (fun _ => true) (nextDay today) events
          (check_events (fun _ => true) (nextDay today) events ann).2).1.countP
        (fun x => decide (x.unique_id = e.unique_id)) = 0 := by
  obtain ⟨c1, c2⟩ := check_events_delivers (nextDay today) e.unique_id events ann
    ⟨e, he, hd, rfl⟩ hn
  exact ⟨c1, c2, check_events_count_zero _ _ _ events _ c2⟩

/-- Witness for C1 at `today = 2024-03-04` with one event dated 2024-03-05. -/
theorem claim1_witness :
    (check_events (fun _ => true) (nextDay ⟨2024, 3, 4⟩)
        [⟨⟨2024, 3, 5⟩, "X", "id1"⟩] ∅).1.countP
        (fun x => decide (x.unique_id = "id1")) = 1 ∧
      "id1" ∈ (check_events (fun _ => true) (nextDay ⟨2024, 3, 4⟩)
        [⟨⟨2024, 3, 5⟩, "X", "id1"⟩] ∅).2 ∧
      (check_events (fun _ => true) (nextDay ⟨2024, 3, 4⟩)
          [⟨⟨2024, 3, 5⟩, "X", "id1"⟩]
          (check_events (fun _ => true) (nextDay ⟨2024, 3, 4⟩)
            [⟨⟨2024, 3, 5⟩, "X", "id1"⟩] ∅).2).1.countP
        (fun x => decide (x.unique_id = "id1")) = 0 :=
  claim1_announced_exactly_once ⟨2024, 3, 4⟩ [⟨⟨2024, 3, 5⟩, "X", "id1"⟩] ∅
    ⟨⟨2024, 3, 5⟩, "X", "id1"⟩ (by decide) (by decide) (by decide)

/-- C2: when the sink fails for an event's notification during a tick, the
announced set does not gain that event's id, and a subsequent tick with
the same tomorrow whose deliveries succeed announces it exactly once. -/
theorem claim2_failed_delivery_retried (today : Date) (events : List EventRec)
    (ann : Finset String) (e : EventRec) (sink1 : EventRec → Bool)
    (he : e ∈ events) (hd : e.date = nextDay today) (hn : e.unique_id ∉ ann)
    (hf : ∀ x : EventRec, x.unique_id = e.unique_id → sink1 x = false) :
    e.unique_id ∉ (check_events sink1 (nextDay today) events ann).2 ∧
      (check_events (fun _ => true) (nextDay today) events
          (check_events sink1 (nextDay today) events ann).2).1.countP
        (fun x => decide (x.unique_id = e.unique_id)) = 1 ∧
      e.unique_id ∈ (check_events (fun _ => true) (nextDay today) events
          (check_events sink1 (nextDay today) events ann).2).2 := by
  have h1 := check_events_not_gained sink1 (nextDay today) e.unique_id hf events ann hn
  obtain ⟨c1, c2⟩ := check_events_delivers (nextDay today) e.unique_id events _
    ⟨e, he, hd, rfl⟩ h1
  exact ⟨h1, c1, c2⟩

/-- Witness for C2: a tick whose sink always fails, then a successful one. -/
theorem claim2_witness :
    "id1" ∉ (check_events (fun _ => false) (nextDay ⟨2024, 3, 4⟩)
        [⟨⟨2024, 3, 5⟩, "X", "id1"⟩] ∅).2 ∧
      (check_events (fun _ => true) (nextDay ⟨2024, 3, 4⟩)
          [⟨⟨2024, 3, 5⟩, "X", "id1"⟩]
          (check_events (fun _ => false) (nextDay ⟨2024, 3, 4⟩)
            [⟨⟨2024, 3, 5⟩, "X", "id1"⟩] ∅).2).1.countP
        (fun x => decide (x.unique_id = "id1")) = 1 ∧
      "id1" ∈ (check_events (fun _ => true) (nextDay ⟨2024, 3, 4⟩)
          [⟨⟨2024, 3, 5⟩, "X", "id1"⟩]
          (check_events (fun _ => false) (nextDay ⟨2024, 3, 4⟩)
            [⟨⟨2024, 3, 5⟩, "X", "id1"⟩] ∅).2).2 :=
  claim2_failed_delivery_retried ⟨2024, 3, 4⟩ [⟨⟨2024, 3, 5⟩, "X", "id1"⟩] ∅
    ⟨⟨2024, 3, 5⟩, "X", "id1"⟩ (fun _ => false) (by decide) (by decide) (by decide)
    (fun _ _ => rfl)

/-- C3: text date cells containing `/` are split on `/`; exactly three
parts are read as day/month/year with `"20"` prefixed to a 2-digit year
and the date constructed from them; `"05/03/24"` parses to 2024-03-05;
any other number of parts leaves the date unresolved. -/
theorem claim3_slash_date_parse :
    coerceDate (Cell.cstr "05/03/24") = some ⟨2024, 3, 5⟩ ∧
    (∀ s : String, s.data.contains '/' = true → (pySplit '/' s).length ≠ 3 →
      coerceDate (Cell.cstr s) = none) ∧
    (∀ s dp mp yp, s.data.contains '/' = true → pySplit '/' s = [dp, mp, yp] →
      coerceDate (Cell.cstr s) =
        (pyInt (if yp.length = 2 then "20" ++ yp else yp)).bind fun y =>
          (pyInt mp).bind fun m => (pyInt dp).bind fun d => mkDate y m d) := by
  refine ⟨by decide, ?_, ?_⟩
  · intro s hc hl
    have hc' : '/' ∈ s.data := by simpa using hc
    have hcd : coerceDate (Cell.cstr s) = parseSlash s := by
      simp [coerceDate, cellStr, hc']
    rw [hcd]
    cases hsp : pySplit '/' s with
    | nil => simp [parseSlash, hsp]
    | cons a tl =>
      cases tl with
      | nil => simp [parseSlash, hsp]
      | cons b tl2 =>
        cases tl2 with
        | nil => simp [parseSlash, hsp]
        | cons c tl3 =>
          cases tl3 with
          | nil => exact absurd (by rw [hsp]; rfl) hl
          | cons d tl4 => simp [parseSlash, hsp]
  · intro s dp mp yp hc hsp
    have hc' : '/' ∈ s.data := by simpa using hc
    have hcd : coerceDate (Cell.cstr s) = parseSlash s := by
      simp [coerceDate, cellStr, hc']
    rw [hcd]
    simp only [parseSlash, hsp]
    cases hY : pyInt (if yp.length = 2 then "20" ++ yp else yp) <;>
      cases hM : pyInt mp <;> cases hD : pyInt dp <;> simp

/-- Witness for C3: a two-part split leaves the date unresolved. -/
theorem claim3_witness : coerceDate (Cell.cstr "1/2") = none :=
  claim3_slash_date_parse.2.1 "1/2" (by decide) (by decide)

/-- C4: text date cells containing `-` but neither `T` nor `/` are parsed
by taking the substring before the first whitespace and reading it
strictly as `YYYY-MM-DD` (`parseYMD`), unresolved on failure; in
particular `"2024-03-05 10:00:00"` parses to 2024-03-05. -/
theorem claim4_dash_date_parse :
    coerceDate (Cell.cstr "2024-03-05 10:00:00") = some ⟨2024, 3, 5⟩ ∧
    (∀ s : String, s.data.contains '/' = false → s.data.contains '-' = true →
      s.data.contains 'T' = false →
      coerceDate (Cell.cstr s) = (wsTokens s).head?.bind parseYMD) := by
  refine ⟨by decide, ?_⟩
  intro s h1 h2 h3
  have h1' : '/' ∉ s.data := by simpa using h1
  have h2' : '-' ∈ s.data := by simpa using h2
  have h3' : 'T' ∉ s.data := by simpa using h3
  have hcd : coerceDate (Cell.cstr s) = parseDash s := by
    simp [coerceDate, cellStr, h1', h2', h3']
  rw [hcd]
  cases hws : wsTokens s with
  | nil => simp [parseDash, hws]
  | cons t ts => simp [parseDash, hws]

/-- Witness for C4 at the spec's example string. -/
theorem claim4_witness :
    coerceDate (Cell.cstr "2024-03-05 10:00:00") =
      (wsTokens "2024-03-05 10:00:00").head?.bind parseYMD :=
  claim4_dash_date_parse.2 "2024-03-05 10:00:00" (by decide) (by decide) (by decide)

/-- C5: a row whose selected date cell is NaN-like, or whose coerced
content is empty, or whose coerced content case-insensitively equals
`"content"`, is skipped: the row parser yields no record for it, so it
never appears in the output, whatever the date cell holds. -/
theorem claim5_skip_invalid_rows (hash : String → Int) (cols : List String)
    (row : List Cell)
    (h : isna (selectCells cols row).1 = true ∨
         coerceContent (selectCells cols row).2 = "" ∨
         pyLower (coerceContent (selectCells cols row).2) = "content") :
    parseRow hash cols row = none := by
  simp only [parseRow]
  split_ifs with h1 h2 h3
  · rfl
  · rfl
  · rfl
  · exfalso
    rcases h with h | h | h
    · exact h1 h
    · exact h2 (Or.inl h)
    · exact h3 h

/-- Witness for C5: a NaN date cell is skipped. -/
theorem claim5_witness :
    parseRow (fun _ => 0) [] [Cell.cnan, Cell.cstr "x"] = none :=
  claim5_skip_invalid_rows (fun _ => 0) [] [Cell.cnan, Cell.cstr "x"]
    (Or.inl (by decide))

/-- C6: every produced record's id is the date formatted `YYYYMMDD`, an
underscore, and the hash of the content; hence any two records parsed
from equal (date, content) pairs — in particular from re-parsing the
same input — get identical ids. -/
theorem claim6_id_scheme (hash : String → Int) (cols : List String)
    (row : List Cell) (ev : EventRec) (h : parseRow hash cols row = some ev) :
    ev.unique_id = dateStamp ev.date ++ "_" ++ toString (hash ev.content) ∧
    (∀ cols2 row2 ev2, parseRow hash cols2 row2 = some ev2 →
      ev.date = ev2.date → ev.content = ev2.content →
      ev.unique_id = ev2.unique_id) := by
  refine ⟨parseRow_unique_id hash cols row ev h, ?_⟩
  intro cols2 row2 ev2 h2 hdate hcontent
  rw [parseRow_unique_id hash cols row ev h,
    parseRow_unique_id hash cols2 row2 ev2 h2, hdate, hcontent]

/-- Witness for C6 at a concrete parsed row and hash. -/
theorem claim6_witness :
    ("20240305_5" : String) =
      dateStamp ⟨2024, 3, 5⟩ ++ "_" ++
        toString ((fun s : String => (s.length : Int)) "Party") :=
  (claim6_id_scheme (fun s : String => (s.length : Int)) []
    [Cell.cstr "05/03/24", Cell.cstr "Party"]
    ⟨⟨2024, 3, 5⟩, "Party", "20240305_5"⟩ (by decide)).1

/-- C7: the example content formats to title `Launch Party`, time field
`9:00-11:00 AM`, a present location field, and details containing
`More info` but not the `- ignore this` line; in general the details
field holds the stripped non-first, non-blank lines not starting with
`-`, in original order, truncated to the first five. -/
theorem claim7_formatter :
    (format_event_message ⟨⟨2024, 3, 5⟩, launchContent, "id"⟩).title =
        "Launch Party" ∧
    (format_event_message ⟨⟨2024, 3, 5⟩, launchContent, "id"⟩).time =
        some "9:00-11:00 AM" ∧
    (format_event_message ⟨⟨2024, 3, 5⟩, launchContent, "id"⟩).location =
        some "Jakarta, Indonesia" ∧
    (format_event_message ⟨⟨2024, 3, 5⟩, launchContent, "id"⟩).details =
        some "9:00-11:00 AM\nJakarta, Indonesia\nMore info" ∧
    strContainsSub "More info"
        "9:00-11:00 AM\nJakarta, Indonesia\nMore info" = true ∧
    strContainsSub "- ignore this"
        "9:00-11:00 AM\nJakarta, Indonesia\nMore info" = false ∧
    (∀ ev : EventRec, (format_event_message ev).details =
      (if ((((pySplit '\n' ev.content).drop 1).filter
            (fun l => pyStrip l != "" && !(startsChars ['-'] l.data))).map
            pyStrip).isEmpty
       then none
       else some (joinNL (((((pySplit '\n' ev.content).drop 1).filter
            (fun l => pyStrip l != "" && !(startsChars ['-'] l.data))).map
            pyStrip).take 5)))) := by
  refine ⟨by decide, by decide, by decide, by decide, by decide, by decide, ?_⟩
  intro ev
  simp only [format_event_message]
  rw [collectDetails_eq]

/-- Witness for C7's general details characterization at a small event. -/
theorem claim7_witness :
    (format_event_message ⟨⟨2024, 1, 1⟩, "a\nb", "i"⟩).details =
      (if ((((pySplit '\n' "a\nb").drop 1).filter
            (fun l => pyStrip l != "" && !(startsChars ['-'] l.data))).map
            pyStrip).isEmpty
       then none
       else some (joinNL (((((pySplit '\n' "a\nb").drop 1).filter
            (fun l => pyStrip l != "" && !(startsChars ['-'] l.data))).map
            pyStrip).take 5))) :=
  claim7_formatter.2.2.2.2.2.2 ⟨⟨2024, 1, 1⟩, "a\nb", "i"⟩

/-- C8: the notification title is the first line of the event content, and
the code's fallback title is produced exactly when the line split is
empty (which the split function in fact never returns). -/
theorem claim8_title_first_line (e : EventRec) :
    (format_event_message e).title = specFirstLine e.content ∧
    (pySplit '\n' e.content = [] →
      (format_event_message e).title = "Event Reminder") := by
  obtain ⟨g, gs, hs⟩ : ∃ g gs, splitChar '\n' e.content.data = g :: gs := by
    cases h : splitChar '\n' e.content.data with
    | nil => exact absurd h (splitChar_ne_nil _ _)
    | cons g gs => exact ⟨g, gs, rfl⟩
  constructor
  · have hhead : g = e.content.data.takeWhile (fun c => !(c == '\n')) := by
      have h2 := splitChar_headD '\n' e.content.data
      rw [hs] at h2
      simpa using h2
    simp only [format_event_message, pySplit, hs, List.map_cons]
    rw [specFirstLine, ← hhead]
  · intro hnil
    exfalso
    rw [pySplit, hs] at hnil
    simp at hnil

/-- Witness for C8 at a two-line content. -/
theorem claim8_witness :
    (format_event_message ⟨⟨2024, 1, 1⟩, "a\nb", "i"⟩).title =
      specFirstLine "a\nb" :=
  (claim8_title_first_line ⟨⟨2024, 1, 1⟩, "a\nb", "i"⟩).1

/-- C9: from every reachable command-surface state, the stop command leaves
the periodic task not running and the announcement channel cleared. -/
theorem claim9_stop_clears (s : BotState) (h : Reachable s) :
    (excel_command s BotAction.stop).running = false ∧
    (excel_command s BotAction.stop).channelId = none := by
  by_cases hr : s.running = true
  · simp [excel_command, hr]
  · have hrf : s.running = false := by simpa using hr
    have hc := reachable_not_running_clear s h hrf
    simp [excel_command, hrf, hc]

/-- Witness for C9 at the initial state. -/
theorem claim9_witness :
    (excel_command ⟨none, false⟩ BotAction.stop).running = false ∧
    (excel_command ⟨none, false⟩ BotAction.stop).channelId = none :=
  claim9_stop_clears ⟨none, false⟩ Reachable.init

/-- C10: a row whose content cell coerces to the literal text `"nan"` (for
example the string rendering of a float NaN) is skipped like empty
content, even though that content is a non-empty string. -/
theorem claim10_nan_string_content (hash : String → Int) (cols : List String)
    (row : List Cell)
    (h : coerceContent (selectCells cols row).2 = "nan") :
    parseRow hash cols row = none ∧
    coerceContent (selectCells cols row).2 ≠ "" := by
  constructor
  · simp only [parseRow]
    split_ifs with h1 h2 h3
    · rfl
    · rfl
    · rfl
    · exact absurd (Or.inr h) h2
  · rw [h]
    decide

/-- Witness for C10: a literal `"nan"` content cell next to a valid date. -/
theorem claim10_witness :
    parseRow (fun _ => 0) [] [Cell.cstr "05/03/24", Cell.cstr "nan"] = none ∧
    coerceContent (selectCells [] [Cell.cstr "05/03/24", Cell.cstr "nan"]).2 ≠ "" :=
  claim10_nan_string_content (fun _ => 0) [] [Cell.cstr "05/03/24", Cell.cstr "nan"]
    (by decide)
